import Mathlib

/-!
Shallow embedding of the RAGE:MP currency API (src/index.js, second revision:
the `CurrencyScript` class using `SYNC_TYPE_*` constants, `Map`-backed
registry, and `setOwnVariable` for owner-only sync — the spec treats this
revision as authoritative).

JavaScript dynamic values are modelled by `JSVal`; JS numbers that satisfy
`Number.isInteger` are modelled as mathematical integers (`Int`), which is
the standard idealisation for this API (balances are integers by contract).
The module-level mutable state (`currencyScript.#currencies` and each
player's `_wallet`) becomes explicit state passed in and returned; event
emission (`this.emit(...)`) and replication calls (`player.setVariable` /
`player.setOwnVariable`) become explicit lists in each operation's result.
-/

/-- JavaScript runtime value, as far as this module inspects values:
`typeof x === "string"` holds exactly for `str`, `Number.isInteger x`
holds exactly for `int` (non-integer numbers are collapsed into `float`),
and `Object.prototype.toString.call x === "[object Object]"` holds exactly
for `object`. Arrays, functions etc. are collapsed into `array` / `other`
since the module never looks inside them. -/
inductive JSVal where
  | int (n : Int)
  | float
  | str (s : String)
  | boolean (b : Bool)
  | null
  | undefined
  | array
  | object (fields : List (String × JSVal))

/-- Number.isInteger, on the modelled values. -/
def isJsInteger : JSVal → Bool
  | JSVal.int _ => true
  | _ => false

/-- Object.prototype.toString.call v === "[object Object]". -/
def isPlainObject : JSVal → Bool
  | JSVal.object _ => true
  | _ => false

/-- Registry record stored per currency by `addCurrency`
(`{ name, syncType, syncKey }` in the source). -/
structure Currency where
  name : String
  syncType : Int
  syncKey : String
deriving DecidableEq, Repr

/-- SYNC_TYPE_NONE = 0 (not shared with clients). -/
def SYNC_TYPE_NONE : Int := 0
/-- SYNC_TYPE_EVERYONE = 1 (shared with everyone). -/
def SYNC_TYPE_EVERYONE : Int := 1
/-- SYNC_TYPE_PLAYER = 2 (shared with just the wallet owner). -/
def SYNC_TYPE_PLAYER : Int := 2

/-- The `#currencies` Map of `CurrencyScript`, as an insertion-ordered
association list (JS `Map` preserves insertion order; `addCurrency` only
ever inserts fresh keys, so append models `Map.set`). -/
abbrev Registry := List (String × Currency)

/-- CurrencyScript.hasCurrency: `this.#currencies.has(key)`. -/
def Registry.hasCurrency (reg : Registry) (key : String) : Bool :=
  reg.any (fun p => p.1 == key)

/-- CurrencyScript.getCurrency: `this.#currencies.get(key)` (`undefined`
when absent, modelled as `none`). -/
def Registry.getCurrency (reg : Registry) (key : String) : Option Currency :=
  (reg.find? (fun p => p.1 == key)).map Prod.snd

/-- CurrencyScript.getAllCurrencies: the iterator `this.#currencies.keys()`,
materialised in insertion order. -/
def Registry.getAllCurrencies (reg : Registry) : List String :=
  reg.map Prod.fst

/-- CurrencyScript.getCurrencyName: `this.#currencies.get(key)?.name ?? "Invalid Currency"`. -/
def Registry.getCurrencyName (reg : Registry) (key : String) : String :=
  ((reg.getCurrency key).map Currency.name).getD "Invalid Currency"

/-- CurrencyScript.getCurrencySyncType: `this.#currencies.get(key)?.syncType ?? SYNC_TYPE_NONE`. -/
def Registry.getCurrencySyncType (reg : Registry) (key : String) : Int :=
  ((reg.getCurrency key).map Currency.syncType).getD SYNC_TYPE_NONE

/-- CurrencyScript.getCurrencySyncKey: `this.#currencies.get(key)?.syncKey ?? null`. -/
def Registry.getCurrencySyncKey (reg : Registry) (key : String) : Option String :=
  (reg.getCurrency key).map Currency.syncKey

/-- The distinct `throw new Error(...)` cases of `addCurrency`, one
constructor per error message in the source. -/
inductive AddError where
  | keyNotString
  | nameNotString
  | syncTypeNotInteger
  | alreadyExists
  | invalidSyncTypeValue
deriving DecidableEq, Repr

/-- Outcome of `addCurrency`: the registry afterwards, the returned
currency or the thrown error, and the events emitted. -/
structure AddResult where
  registry : Registry
  result : Except AddError Currency
  events : List (String × String × Int × String)

/-- CurrencyScript.addCurrency. Validation order is exactly the source's:
key string check, name string check, `Number.isInteger(syncType)`,
`this.#currencies.has(key)`, then the `syncType` range check; on success
stores `{name, syncType, syncKey: "currency_" + key}`, emits
`currencyDefined` and returns the record. -/
def addCurrency (reg : Registry) (key name syncType : JSVal) : AddResult :=
  match key with
  | JSVal.str k =>
    if k.length < 1 then ⟨reg, Except.error AddError.keyNotString, []⟩
    else
      match name with
      | JSVal.str nm =>
        if nm.length < 1 then ⟨reg, Except.error AddError.nameNotString, []⟩
        else
          match syncType with
          | JSVal.int st =>
            if reg.hasCurrency k then ⟨reg, Except.error AddError.alreadyExists, []⟩
            else if st < SYNC_TYPE_NONE ∨ SYNC_TYPE_PLAYER < st then
              ⟨reg, Except.error AddError.invalidSyncTypeValue, []⟩
            else
              let currency : Currency := ⟨nm, st, "currency_" ++ k⟩
              ⟨reg ++ [(k, currency)], Except.ok currency, [(k, nm, st, currency.syncKey)]⟩
          | _ => ⟨reg, Except.error AddError.syncTypeNotInteger, []⟩
      | _ => ⟨reg, Except.error AddError.nameNotString, []⟩
  | _ => ⟨reg, Except.error AddError.keyNotString, []⟩

/-- Wallet attached to a player (`player._wallet`): a JS object, i.e. an
association list of string keys to JS values, in insertion order.
`playerJoin` initialises it to `[]` (the empty object). -/
abbrev Wallet := List (String × JSVal)

/-- Initial wallet: `player._wallet = {}` on the `playerJoin` event. -/
def initialWallet : Wallet := []

/-- JS `obj.hasOwnProperty(k)` on the wallet object. -/
def hasOwn (w : Wallet) (k : String) : Bool :=
  w.any (fun p => p.1 == k)

/-- JS `obj[k]` on the wallet object: the stored value, or `undefined`. -/
def rawGet (w : Wallet) (k : String) : JSVal :=
  ((w.find? (fun p => p.1 == k)).map Prod.snd).getD JSVal.undefined

/-- JS `obj[k] = v` on the wallet object: overwrite in place if the key is
present (property order unchanged), otherwise append as the newest key. -/
def walletSet (w : Wallet) (k : String) (v : JSVal) : Wallet :=
  if hasOwn w k then
    w.map (fun p => if p.1 == k then (p.1, v) else p)
  else
    w ++ [(k, v)]

/-- JS `+` as used by `changeCurrency`'s `this._wallet[key] += amount`:
both operands are integers on every reachable wallet (see the wallet
invariant); other operand shapes are collapsed into `float`, which the
proofs never rely on. -/
def jsAdd (a b : JSVal) : JSVal :=
  match a, b with
  | JSVal.int m, JSVal.int n => JSVal.int (m + n)
  | _, _ => JSVal.float

/-- mp.Player.prototype.getCurrency:
`this._wallet.hasOwnProperty(k) ? this._wallet[k] : 0`. -/
def Player.getCurrency (w : Wallet) (currencyKey : String) : JSVal :=
  if hasOwn w currencyKey then rawGet w currencyKey else JSVal.int 0

/-- Replication call handed to the host runtime. -/
inductive SyncCall where
  | setVariable (syncKey : String) (value : JSVal)
  | setOwnVariable (syncKey : String) (value : JSVal)

/-- Event emitted on the `currencyScript` emitter by the wallet operations. -/
inductive WalletEvent where
  | walletReplaced (oldWallet newWallet : Wallet)
  | currencyUpdated (key : String) (oldAmount newAmount : JSVal) (reason : String)

/-- Outcome of one wallet operation: the registry afterwards (the
operations only read it), the wallet afterwards, the boolean return value,
the replication calls issued, and the events emitted, both in order. -/
structure OpResult where
  registry : Registry
  wallet : Wallet
  ret : Bool
  calls : List SyncCall
  events : List WalletEvent

/-- mp.Player.prototype.setCurrency. -/
def setCurrency (reg : Registry) (w : Wallet) (currencyKey : String) (newAmount : JSVal) :
    OpResult :=
  match reg.getCurrency currencyKey, newAmount with
  | some currency, JSVal.int n =>
    let oldAmount := Player.getCurrency w currencyKey
    let w' := walletSet w currencyKey (JSVal.int n)
    { registry := reg
      wallet := w'
      ret := true
      calls :=
        if currency.syncType = SYNC_TYPE_EVERYONE then
          [SyncCall.setVariable currency.syncKey (JSVal.int n)]
        else if currency.syncType = SYNC_TYPE_PLAYER then
          [SyncCall.setOwnVariable currency.syncKey (JSVal.int n)]
        else []
      events := [WalletEvent.currencyUpdated currencyKey oldAmount (JSVal.int n) "setCurrency"] }
  | some _, _ => ⟨reg, w, false, [], []⟩
  | none, _ => ⟨reg, w, false, [], []⟩

/-- mp.Player.prototype.changeCurrency. -/
def changeCurrency (reg : Registry) (w : Wallet) (currencyKey : String) (amount : JSVal) :
    OpResult :=
  match reg.getCurrency currencyKey, amount with
  | some currency, JSVal.int n =>
    let oldAmount := Player.getCurrency w currencyKey
    let w' :=
      if hasOwn w currencyKey then
        walletSet w currencyKey (jsAdd (rawGet w currencyKey) (JSVal.int n))
      else
        walletSet w currencyKey (JSVal.int n)
    let newAmount := rawGet w' currencyKey
    { registry := reg
      wallet := w'
      ret := true
      calls :=
        if currency.syncType = SYNC_TYPE_EVERYONE then
          [SyncCall.setVariable currency.syncKey newAmount]
        else if currency.syncType = SYNC_TYPE_PLAYER then
          [SyncCall.setOwnVariable currency.syncKey newAmount]
        else []
      events := [WalletEvent.currencyUpdated currencyKey oldAmount newAmount "changeCurrency"] }
  | some _, _ => ⟨reg, w, false, [], []⟩
  | none, _ => ⟨reg, w, false, [], []⟩

/-- The filtering loop of `setWallet`: keep exactly the entries whose key
is a registered currency and whose value passes `Number.isInteger`
(invalid entries are skipped with `continue` in the source). -/
def filterWallet (reg : Registry) : List (String × JSVal) → Wallet
  | [] => []
  | (k, v) :: rest =>
    if reg.hasCurrency k && isJsInteger v then (k, v) :: filterWallet reg rest
    else filterWallet reg rest

/-- The replication loop of `setWallet`: one `switch` on
`currencyScript.getCurrency(key).syncType` per surviving entry. Every
surviving key was filtered through `hasCurrency`, so the registry lookup
always succeeds there; the unreachable `none` branch issues no call. -/
def syncCallsFor (reg : Registry) : Wallet → List SyncCall
  | [] => []
  | (k, v) :: rest =>
    (match reg.getCurrency k with
     | some currency =>
       if currency.syncType = SYNC_TYPE_EVERYONE then
         [SyncCall.setVariable currency.syncKey v]
       else if currency.syncType = SYNC_TYPE_PLAYER then
         [SyncCall.setOwnVariable currency.syncKey v]
       else []
     | none => []) ++ syncCallsFor reg rest

/-- mp.Player.prototype.setWallet. -/
def setWallet (reg : Registry) (w : Wallet) (newWallet : JSVal) : OpResult :=
  match newWallet with
  | JSVal.object fields =>
    let replacement := filterWallet reg fields
    { registry := reg
      wallet := replacement
      ret := true
      calls := syncCallsFor reg replacement
      events := [WalletEvent.walletReplaced w replacement] }
  | _ => ⟨reg, w, false, [], []⟩

/-- A wallet operation, for stating invariants over operation sequences. -/
inductive WalletOp where
  | setWallet (arg : JSVal)
  | setCurrency (key : String) (amount : JSVal)
  | changeCurrency (key : String) (amount : JSVal)

/-- Apply one wallet operation, keeping only the wallet. -/
def applyOp (reg : Registry) (w : Wallet) : WalletOp → Wallet
  | WalletOp.setWallet a => (setWallet reg w a).wallet
  | WalletOp.setCurrency k a => (setCurrency reg w k a).wallet
  | WalletOp.changeCurrency k a => (changeCurrency reg w k a).wallet

/-- Run a sequence of wallet operations from a starting wallet. -/
def runOps (reg : Registry) (w : Wallet) : List WalletOp → Wallet
  | [] => w
  | op :: rest => runOps reg (applyOp reg w op) rest

/-- Wallet invariant: every key is a registered currency and every stored
balance is an integer. -/
def WalletInv (reg : Registry) (w : Wallet) : Prop :=
  ∀ p ∈ w, reg.hasCurrency p.1 = true ∧ ∃ n : Int, p.2 = JSVal.int n

/-! Basic lemmas about the registry and wallet primitives. -/

theorem hasCurrency_false_iff (reg : Registry) (k : String) :
    reg.hasCurrency k = false ↔ ∀ p ∈ reg, p.1 ≠ k := by
  simp [Registry.hasCurrency, List.any_eq_false]

theorem getCurrency_eq_none_of_not_has (reg : Registry) (k : String)
    (h : reg.hasCurrency k = false) : reg.getCurrency k = none := by
  rw [hasCurrency_false_iff] at h
  have hnone : reg.find? (fun p => p.1 == k) = none := by
    rw [List.find?_eq_none]
    intro p hp
    simpa using h p hp
  simp [Registry.getCurrency, hnone]

theorem hasCurrency_of_getCurrency_eq_some (reg : Registry) (k : String) (c : Currency)
    (h : reg.getCurrency k = some c) : reg.hasCurrency k = true := by
  unfold Registry.getCurrency at h
  rcases hf : reg.find? (fun p => p.1 == k) with _ | p
  · rw [hf] at h
    cases h
  · have hmem := List.mem_of_find?_eq_some hf
    have hk := List.find?_some hf
    simp only [Registry.hasCurrency, List.any_eq_true]
    exact ⟨p, hmem, hk⟩

theorem hasOwn_false_iff (w : Wallet) (k : String) :
    hasOwn w k = false ↔ ∀ p ∈ w, p.1 ≠ k := by
  simp [hasOwn, List.any_eq_false]

theorem hasOwn_walletSet_ne (w : Wallet) (k k' : String) (v : JSVal) (h : k' ≠ k) :
    hasOwn (walletSet w k v) k' = hasOwn w k' := by
  unfold walletSet
  split
  · simp only [hasOwn, List.any_map]
    congr 1
    funext p
    by_cases hp : p.1 = k <;> simp [Function.comp, hp, Ne.symm h]
  · simp [hasOwn, List.any_append, Ne.symm h]

theorem rawGet_walletSet_ne (w : Wallet) (k k' : String) (v : JSVal) (h : k' ≠ k) :
    rawGet (walletSet w k v) k' = rawGet w k' := by
  unfold walletSet
  split
  · simp only [rawGet, List.find?_map]
    have : (fun p : String × JSVal => p.1 == k') ∘
        (fun p : String × JSVal => if p.1 == k then (p.1, v) else p) =
        fun p : String × JSVal => p.1 == k' := by
      funext p
      by_cases hp : p.1 = k <;> simp [Function.comp, hp, Ne.symm h]
    rw [this]
    rcases hf : w.find? (fun p => p.1 == k') with _ | p
    · simp [hf]
    · have hp : p.1 = k' := by simpa using List.find?_some hf
      simp [hf, hp, h]
  · simp [rawGet, List.find?_append, Ne.symm h]

theorem getCurrency_walletSet_ne (w : Wallet) (k k' : String) (v : JSVal) (h : k' ≠ k) :
    Player.getCurrency (walletSet w k v) k' = Player.getCurrency w k' := by
  simp [Player.getCurrency, hasOwn_walletSet_ne w k k' v h, rawGet_walletSet_ne w k k' v h]

theorem hasOwn_walletSet_self (w : Wallet) (k : String) (v : JSVal) :
    hasOwn (walletSet w k v) k = true := by
  unfold walletSet
  split
  · rename_i hw
    simp only [hasOwn, List.any_map, List.any_eq_true] at hw ⊢
    obtain ⟨p, hp, hk⟩ := hw
    refine ⟨p, hp, ?_⟩
    simp only [Function.comp]
    simp only [hk]
    simpa using hk
  · simp [hasOwn, List.any_append]

theorem rawGet_walletSet_self (w : Wallet) (k : String) (v : JSVal) :
    rawGet (walletSet w k v) k = v := by
  unfold walletSet
  split
  · rename_i hw
    simp only [rawGet, List.find?_map]
    have hcomp : (fun p : String × JSVal => p.1 == k) ∘
        (fun p : String × JSVal => if p.1 == k then (p.1, v) else p) =
        fun p : String × JSVal => p.1 == k := by
      funext p
      by_cases hp : p.1 = k <;> simp [Function.comp, hp]
    rw [hcomp]
    simp only [hasOwn, List.any_eq_true] at hw
    obtain ⟨p, hp, hk⟩ := hw
    rcases hf : w.find? (fun p => p.1 == k) with _ | q
    · rw [List.find?_eq_none] at hf
      exact absurd hk (hf p hp)
    · have hq : q.1 = k := by simpa using List.find?_some hf
      simp [hf, hq]
  · rename_i hw
    rw [Bool.not_eq_true, hasOwn_false_iff] at hw
    have hnone : w.find? (fun p => p.1 == k) = none := by
      rw [List.find?_eq_none]
      intro p hp
      simpa using hw p hp
    simp [rawGet, List.find?_append, hnone]

/-- Example registry shared by the concrete witnesses: the registry after
`addCurrency("gold", "Gold", SYNC_TYPE_EVERYONE)` on an empty registry. -/
def regGold : Registry := [("gold", ⟨"Gold", 1, "currency_gold"⟩)]

/-- C8: for every key that is not a registered currency, the player-level
`getCurrency` on any reachable wallet (one satisfying the wallet
invariant) returns 0, `getCurrencyName` returns the sentinel
"Invalid Currency", and `getCurrencySyncType` returns `SYNC_TYPE_NONE`.
All three are pure functions of the state in this embedding — they are
total, raise nothing, and return no modified state. -/
theorem claim8_unregistered_reads (reg : Registry) (w : Wallet) (k : String)
    (hreg : reg.hasCurrency k = false) (hw : WalletInv reg w) :
    Player.getCurrency w k = JSVal.int 0 ∧
    reg.getCurrencyName k = "Invalid Currency" ∧
    reg.getCurrencySyncType k = SYNC_TYPE_NONE := by
  have hnone := getCurrency_eq_none_of_not_has reg k hreg
  have hown : hasOwn w k = false := by
    rw [hasOwn_false_iff]
    intro p hp hpk
    have h1 := (hw p hp).1
    rw [hpk] at h1
    rw [h1] at hreg
    cases hreg
  exact ⟨by simp [Player.getCurrency, hown],
         by simp [Registry.getCurrencyName, hnone],
         by simp [Registry.getCurrencySyncType, hnone]⟩

/-- Witness for C8: the unregistered key "vip" against the "gold"-only
registry and a wallet holding 5 gold. -/
theorem claim8_unregistered_reads_witness :
    Player.getCurrency [("gold", JSVal.int 5)] "vip" = JSVal.int 0 ∧
    Registry.getCurrencyName regGold "vip" = "Invalid Currency" ∧
    Registry.getCurrencySyncType regGold "vip" = SYNC_TYPE_NONE :=
  claim8_unregistered_reads regGold [("gold", JSVal.int 5)] "vip" (by rfl)
    (by
      intro p hp
      have hp' : p = ("gold", JSVal.int 5) := by simpa using hp
      subst hp'
      exact ⟨by rfl, 5, rfl⟩)

/-- C10: a successful `setCurrency` or `changeCurrency` for key `k`
modifies at most the wallet entry for `k` — the balance of every other
key `k'` of the caller's wallet is unchanged — and the currency registry
is unchanged. -/
theorem claim10_frame (reg : Registry) (w : Wallet) (k : String) (amount : JSVal)
    (k' : String) (hne : k' ≠ k) :
    ((setCurrency reg w k amount).ret = true →
      Player.getCurrency (setCurrency reg w k amount).wallet k' = Player.getCurrency w k' ∧
      (setCurrency reg w k amount).registry = reg) ∧
    ((changeCurrency reg w k amount).ret = true →
      Player.getCurrency (changeCurrency reg w k amount).wallet k' = Player.getCurrency w k' ∧
      (changeCurrency reg w k amount).registry = reg) := by
  have hset : ∀ v : JSVal, Player.getCurrency (walletSet w k v) k' = Player.getCurrency w k' :=
    fun v => getCurrency_walletSet_ne w k k' v hne
  constructor
  · intro _
    rcases hg : reg.getCurrency k with _ | c <;> cases amount <;>
      simp [setCurrency, hg, hset]
  · intro _
    rcases hg : reg.getCurrency k with _ | c <;> cases amount <;>
      simp only [changeCurrency, hg] <;>
      first
        | trivial
        | (split <;> exact ⟨hset _, trivial⟩)

/-- Witness for C10: setting and adjusting "gold" leaves the balance of
the distinct key "vip" unchanged. -/
theorem claim10_frame_witness :
    Player.getCurrency (setCurrency regGold [("gold", JSVal.int 1)] "gold"
        (JSVal.int 2)).wallet "vip" = Player.getCurrency [("gold", JSVal.int 1)] "vip" ∧
    Player.getCurrency (changeCurrency regGold [("gold", JSVal.int 1)] "gold"
        (JSVal.int 2)).wallet "vip" = Player.getCurrency [("gold", JSVal.int 1)] "vip" := by
  have h := claim10_frame regGold [("gold", JSVal.int 1)] "gold" (JSVal.int 2) "vip" (by decide)
  exact ⟨(h.1 (by rfl)).1, (h.2 (by rfl)).1⟩

theorem getCurrency_isSome_of_has (reg : Registry) (k : String)
    (h : reg.hasCurrency k = true) : ∃ c, reg.getCurrency k = some c := by
  simp only [Registry.hasCurrency, List.any_eq_true] at h
  obtain ⟨p, hp, hk⟩ := h
  rcases hf : reg.find? (fun p => p.1 == k) with _ | q
  · rw [List.find?_eq_none] at hf
    exact absurd hk (hf p hp)
  · exact ⟨q.2, by simp [Registry.getCurrency, hf]⟩

theorem getCurrency_walletSet_self (w : Wallet) (k : String) (v : JSVal) :
    Player.getCurrency (walletSet w k v) k = v := by
  simp [Player.getCurrency, hasOwn_walletSet_self, rawGet_walletSet_self]

/-- C6: for a registered currency key absent from the wallet and integers
d1, d2, changeCurrency(k, d1) followed by changeCurrency(k, d2) leaves
the same final balance for k as a single setCurrency(k, d1+d2) from the
same starting wallet. -/
theorem claim6_adjust_adjust_eq_set (reg : Registry) (w : Wallet) (k : String) (d1 d2 : Int)
    (hreg : reg.hasCurrency k = true) (habs : hasOwn w k = false) :
    Player.getCurrency
        (changeCurrency reg (changeCurrency reg w k (JSVal.int d1)).wallet k (JSVal.int d2)).wallet
        k =
      Player.getCurrency (setCurrency reg w k (JSVal.int (d1 + d2))).wallet k := by
  obtain ⟨c, hg⟩ := getCurrency_isSome_of_has reg k hreg
  simp [changeCurrency, setCurrency, hg, habs, hasOwn_walletSet_self,
    rawGet_walletSet_self, jsAdd, getCurrency_walletSet_self]

/-- Witness for C6: adjusting "gold" by 2, then by 3, from the empty
wallet, equals setting it to 5. -/
theorem claim6_adjust_adjust_eq_set_witness :
    Registry.hasCurrency regGold "gold" = true ∧
    hasOwn initialWallet "gold" = false ∧
    Player.getCurrency
        (changeCurrency regGold (changeCurrency regGold initialWallet "gold"
          (JSVal.int 2)).wallet "gold" (JSVal.int 3)).wallet "gold" =
      Player.getCurrency (setCurrency regGold initialWallet "gold" (JSVal.int (2 + 3))).wallet
        "gold" :=
  ⟨rfl, rfl, claim6_adjust_adjust_eq_set regGold initialWallet "gold" 2 3 rfl rfl⟩

/-- C5 (amended): every successful setCurrency emits exactly one
currencyUpdated event and its reason is the string "setCurrency"; every
successful changeCurrency emits exactly one currencyUpdated event with
reason "changeCurrency"; failed calls emit nothing — so the reason is
always one of x7b"setCurrency", "changeCurrency"\x7d, not
\x7b"set", "adjust"\x7d as the claim states. -/
theorem claim5_update_reasons (reg : Registry) (w : Wallet) (k : String) (a : JSVal) :
    ((setCurrency reg w k a).ret = true →
      (setCurrency reg w k a).events =
        [WalletEvent.currencyUpdated k (Player.getCurrency w k) a "setCurrency"]) ∧
    ((setCurrency reg w k a).ret = false → (setCurrency reg w k a).events = []) ∧
    ((changeCurrency reg w k a).ret = true →
      (changeCurrency reg w k a).events =
        [WalletEvent.currencyUpdated k (Player.getCurrency w k)
          (rawGet (changeCurrency reg w k a).wallet k) "changeCurrency"]) ∧
    ((changeCurrency reg w k a).ret = false → (changeCurrency reg w k a).events = []) := by
  rcases hg : reg.getCurrency k with _ | c <;> cases a <;>
    simp [setCurrency, changeCurrency, hg, rawGet_walletSet_self]

/-- Witness for C5 at a concrete successful set and adjust on "gold". -/
theorem claim5_update_reasons_witness :
    (setCurrency regGold [] "gold" (JSVal.int 100)).events =
      [WalletEvent.currencyUpdated "gold" (Player.getCurrency [] "gold") (JSVal.int 100)
        "setCurrency"] ∧
    (changeCurrency regGold [] "gold" (JSVal.int 100)).events =
      [WalletEvent.currencyUpdated "gold" (Player.getCurrency [] "gold")
        (rawGet (changeCurrency regGold [] "gold" (JSVal.int 100)).wallet "gold")
        "changeCurrency"] := by
  have h := claim5_update_reasons regGold [] "gold" (JSVal.int 100)
  exact ⟨h.1 rfl, h.2.2.1 rfl⟩

/-- C5 counterexample: a successful setCurrency emits the reason string
"setCurrency" — not "set" — and a successful changeCurrency emits
"changeCurrency" — not "adjust" — so the reason is never in
\x7b"set", "adjust"\x7d, refuting the claim as stated. -/
theorem claim5_counterexample :
    (setCurrency regGold [] "gold" (JSVal.int 100)).ret = true ∧
    (setCurrency regGold [] "gold" (JSVal.int 100)).events =
      [WalletEvent.currencyUpdated "gold" (JSVal.int 0) (JSVal.int 100) "setCurrency"] ∧
    "setCurrency" ≠ "set" ∧ "setCurrency" ≠ "adjust" ∧
    (changeCurrency regGold [] "gold" (JSVal.int 100)).ret = true ∧
    (changeCurrency regGold [] "gold" (JSVal.int 100)).events =
      [WalletEvent.currencyUpdated "gold" (JSVal.int 0) (JSVal.int 100) "changeCurrency"] ∧
    "changeCurrency" ≠ "set" ∧ "changeCurrency" ≠ "adjust" :=
  ⟨rfl, rfl, by decide, by decide, rfl, rfl, by decide, by decide⟩

/-- C9: when the argument to setWallet is not a plain key-to-value object
the call returns false, leaves the wallet unchanged, performs no
replication call, and emits no event; when it is a plain object the call
returns true (even when entries are dropped by the filter). -/
theorem claim9_setWallet_nonobject (reg : Registry) (w : Wallet) (v : JSVal) :
    (isPlainObject v = false → setWallet reg w v = ⟨reg, w, false, [], []⟩) ∧
    (isPlainObject v = true → (setWallet reg w v).ret = true) := by
  cases v <;> simp [isPlainObject, setWallet]

/-- Witness for C9: a string argument is rejected with no effect; an
object argument containing droppable entries still returns true. -/
theorem claim9_setWallet_nonobject_witness :
    setWallet regGold [("gold", JSVal.int 1)] (JSVal.str "nope") =
      ⟨regGold, [("gold", JSVal.int 1)], false, [], []⟩ ∧
    (setWallet regGold [("gold", JSVal.int 1)]
        (JSVal.object [("gold", JSVal.int 5), ("vip", JSVal.int 9)])).ret = true :=
  ⟨(claim9_setWallet_nonobject regGold [("gold", JSVal.int 1)] (JSVal.str "nope")).1 rfl,
   (claim9_setWallet_nonobject regGold [("gold", JSVal.int 1)]
      (JSVal.object [("gold", JSVal.int 5), ("vip", JSVal.int 9)])).2 rfl⟩

theorem filterWallet_eq_filter (reg : Registry) (l : List (String × JSVal)) :
    filterWallet reg l = l.filter (fun p => reg.hasCurrency p.1 && isJsInteger p.2) := by
  induction l with
  | nil => rfl
  | cons q rest ih =>
    obtain ⟨qk, qv⟩ := q
    simp only [filterWallet, List.filter_cons, ih]

/-- C4: for every input mapping, the wallet produced by a successful
setWallet contains exactly those entries of the input whose key is a
registered currency and whose value is an integer (membership in both
directions); the closing conjunct is the spec's concrete scenario — with
only "gold" registered, the input with entries gold = 5,
unknown_currency = 9 and gold2 = "not_a_number" yields exactly the
wallet holding gold = 5. -/
theorem claim4_setWallet_filters (reg : Registry) (w : Wallet)
    (fields : List (String × JSVal)) (p : String × JSVal) :
    (p ∈ (setWallet reg w (JSVal.object fields)).wallet ↔
      p ∈ fields ∧ reg.hasCurrency p.1 = true ∧ isJsInteger p.2 = true) ∧
    (setWallet regGold [] (JSVal.object
        [("gold", JSVal.int 5), ("unknown_currency", JSVal.int 9),
         ("gold2", JSVal.str "not_a_number")])).wallet = [("gold", JSVal.int 5)] := by
  constructor
  · simp only [setWallet, filterWallet_eq_filter, List.mem_filter, Bool.and_eq_true]
  · rfl

/-- Exactly one replication call per entry, written as a flat map. -/
theorem syncCallsFor_eq_flatMap (reg : Registry) (l : Wallet) :
    syncCallsFor reg l = l.flatMap (fun q =>
      match reg.getCurrency q.1 with
      | some cur =>
        if cur.syncType = SYNC_TYPE_EVERYONE then [SyncCall.setVariable cur.syncKey q.2]
        else if cur.syncType = SYNC_TYPE_PLAYER then [SyncCall.setOwnVariable cur.syncKey q.2]
        else []
      | none => []) := by
  induction l with
  | nil => rfl
  | cons q rest ih => simp only [syncCallsFor, List.flatMap_cons, ih]

/-- C1: every mutation on a registered currency makes exactly one
replication call when the sync policy is EVERYONE (setVariable, under the
currency's syncKey, carrying the new balance) or PLAYER (setOwnVariable,
same channel and value), and none when the policy is NONE; setWallet
makes exactly one such call per surviving entry of the replacement. -/
theorem claim1_replication (reg : Registry) (w : Wallet) (k : String) (n : Int) (c : Currency)
    (hg : reg.getCurrency k = some c) :
    ((setCurrency reg w k (JSVal.int n)).calls =
      if c.syncType = SYNC_TYPE_EVERYONE then [SyncCall.setVariable c.syncKey (JSVal.int n)]
      else if c.syncType = SYNC_TYPE_PLAYER then [SyncCall.setOwnVariable c.syncKey (JSVal.int n)]
      else []) ∧
    ((changeCurrency reg w k (JSVal.int n)).calls =
      if c.syncType = SYNC_TYPE_EVERYONE then
        [SyncCall.setVariable c.syncKey (rawGet (changeCurrency reg w k (JSVal.int n)).wallet k)]
      else if c.syncType = SYNC_TYPE_PLAYER then
        [SyncCall.setOwnVariable c.syncKey (rawGet (changeCurrency reg w k (JSVal.int n)).wallet k)]
      else []) ∧
    (∀ fields : List (String × JSVal),
      (setWallet reg w (JSVal.object fields)).calls =
        (setWallet reg w (JSVal.object fields)).wallet.flatMap (fun q =>
          match reg.getCurrency q.1 with
          | some cur =>
            if cur.syncType = SYNC_TYPE_EVERYONE then [SyncCall.setVariable cur.syncKey q.2]
            else if cur.syncType = SYNC_TYPE_PLAYER then [SyncCall.setOwnVariable cur.syncKey q.2]
            else []
          | none => [])) := by
  refine ⟨?_, ?_, ?_⟩
  · simp [setCurrency, hg]
  · simp [changeCurrency, hg]
  · intro fields
    simp only [setWallet, syncCallsFor_eq_flatMap]

/-- Witness for C1: the Broadcast-policy currency "gold" produces exactly
one setVariable call per mutation, under "currency_gold", with the new
balance. -/
theorem claim1_replication_witness :
    (setCurrency regGold [] "gold" (JSVal.int 42)).calls =
      [SyncCall.setVariable "currency_gold" (JSVal.int 42)] ∧
    (changeCurrency regGold [] "gold" (JSVal.int 42)).calls =
      [SyncCall.setVariable "currency_gold" (JSVal.int 42)] ∧
    (setWallet regGold [] (JSVal.object [("gold", JSVal.int 7)])).calls =
      [SyncCall.setVariable "currency_gold" (JSVal.int 7)] := by
  have h := claim1_replication regGold [] "gold" 42 ⟨"Gold", 1, "currency_gold"⟩ rfl
  refine ⟨?_, ?_, ?_⟩
  · simpa [SYNC_TYPE_EVERYONE] using h.1
  · have h2 := h.2.1
    simpa [SYNC_TYPE_EVERYONE] using h2
  · have h3 := h.2.2 [("gold", JSVal.int 7)]
    simpa using h3

theorem isJsInteger_eq_true_iff (v : JSVal) :
    isJsInteger v = true ↔ ∃ n : Int, v = JSVal.int n := by
  cases v <;> simp [isJsInteger]

theorem rawGet_int_of_inv (reg : Registry) (w : Wallet) (k : String)
    (hw : WalletInv reg w) (how : hasOwn w k = true) :
    ∃ m : Int, rawGet w k = JSVal.int m := by
  simp only [hasOwn, List.any_eq_true] at how
  obtain ⟨p, hp, hk⟩ := how
  rcases hf : w.find? (fun p => p.1 == k) with _ | q
  · rw [List.find?_eq_none] at hf
    exact absurd hk (hf p hp)
  · obtain ⟨-, m, hm⟩ := hw q (List.mem_of_find?_eq_some hf)
    exact ⟨m, by simp [rawGet, hf, hm]⟩

theorem walletInv_walletSet (reg : Registry) (w : Wallet) (k : String) (n : Int)
    (hw : WalletInv reg w) (hk : reg.hasCurrency k = true) :
    WalletInv reg (walletSet w k (JSVal.int n)) := by
  intro p hp
  unfold walletSet at hp
  split at hp
  · rw [List.mem_map] at hp
    obtain ⟨q, hq, hfq⟩ := hp
    by_cases hqk : q.1 = k
    · have hcond : (q.1 == k) = true := by simpa using hqk
      rw [hcond] at hfq
      simp only [if_true] at hfq
      subst hfq
      exact ⟨by rw [hqk]; exact hk, n, rfl⟩
    · have hcond : (q.1 == k) = false := by simpa using hqk
      rw [hcond] at hfq
      simp only [Bool.false_eq_true, if_false] at hfq
      subst hfq
      exact hw q hq
  · rw [List.mem_append] at hp
    rcases hp with hp | hp
    · exact hw p hp
    · have hp' : p = (k, JSVal.int n) := by simpa using hp
      subst hp'
      exact ⟨hk, n, rfl⟩

theorem walletInv_filterWallet (reg : Registry) (l : List (String × JSVal)) :
    WalletInv reg (filterWallet reg l) := by
  intro p hp
  rw [filterWallet_eq_filter, List.mem_filter, Bool.and_eq_true] at hp
  exact ⟨hp.2.1, (isJsInteger_eq_true_iff p.2).mp hp.2.2⟩

theorem walletInv_applyOp (reg : Registry) (w : Wallet) (op : WalletOp)
    (hw : WalletInv reg w) : WalletInv reg (applyOp reg w op) := by
  cases op with
  | setWallet a =>
    cases a with
    | object fields =>
      have h := walletInv_filterWallet reg fields
      simpa [applyOp, setWallet] using h
    | int n => simpa [applyOp, setWallet] using hw
    | float => simpa [applyOp, setWallet] using hw
    | str s => simpa [applyOp, setWallet] using hw
    | boolean b => simpa [applyOp, setWallet] using hw
    | null => simpa [applyOp, setWallet] using hw
    | undefined => simpa [applyOp, setWallet] using hw
    | array => simpa [applyOp, setWallet] using hw
  | setCurrency k a =>
    rcases hg : reg.getCurrency k with _ | c
    · cases a <;> simpa [applyOp, setCurrency, hg] using hw
    · have hk := hasCurrency_of_getCurrency_eq_some reg k c hg
      cases a with
      | int n =>
        have h := walletInv_walletSet reg w k n hw hk
        simpa [applyOp, setCurrency, hg] using h
      | float => simpa [applyOp, setCurrency, hg] using hw
      | str s => simpa [applyOp, setCurrency, hg] using hw
      | boolean b => simpa [applyOp, setCurrency, hg] using hw
      | null => simpa [applyOp, setCurrency, hg] using hw
      | undefined => simpa [applyOp, setCurrency, hg] using hw
      | array => simpa [applyOp, setCurrency, hg] using hw
      | object fields => simpa [applyOp, setCurrency, hg] using hw
  | changeCurrency k a =>
    rcases hg : reg.getCurrency k with _ | c
    · cases a <;> simpa [applyOp, changeCurrency, hg] using hw
    · have hk := hasCurrency_of_getCurrency_eq_some reg k c hg
      cases a with
      | int n =>
        by_cases how : hasOwn w k = true
        · obtain ⟨m, hm⟩ := rawGet_int_of_inv reg w k hw how
          have h := walletInv_walletSet reg w k (m + n) hw hk
          simpa [applyOp, changeCurrency, hg, how, hm, jsAdd] using h
        · have how' : hasOwn w k = false := by simpa using how
          have h := walletInv_walletSet reg w k n hw hk
          simpa [applyOp, changeCurrency, hg, how'] using h
      | float => simpa [applyOp, changeCurrency, hg] using hw
      | str s => simpa [applyOp, changeCurrency, hg] using hw
      | boolean b => simpa [applyOp, changeCurrency, hg] using hw
      | null => simpa [applyOp, changeCurrency, hg] using hw
      | undefined => simpa [applyOp, changeCurrency, hg] using hw
      | array => simpa [applyOp, changeCurrency, hg] using hw
      | object fields => simpa [applyOp, changeCurrency, hg] using hw

/-- C2: starting from the empty wallet created at player join, after any
sequence of the operations setWallet, setCurrency and changeCurrency,
every key present in the wallet is a registered currency of the registry
and every stored balance is an integer (`WalletInv`). -/
theorem claim2_wallet_invariant (reg : Registry) (ops : List WalletOp) :
    WalletInv reg (runOps reg initialWallet ops) := by
  suffices h : ∀ ops (w : Wallet), WalletInv reg w → WalletInv reg (runOps reg w ops) by
    refine h ops initialWallet ?_
    intro p hp
    cases hp
  intro ops
  induction ops with
  | nil =>
    intro w hw
    simpa [runOps] using hw
  | cons op rest ih =>
    intro w hw
    have h1 := ih (applyOp reg w op) (walletInv_applyOp reg w op hw)
    simpa [runOps] using h1

/-- Witness for C2 at a concrete operation sequence: a set, an adjust,
and a bulk replacement containing an invalid entry. -/
theorem claim2_wallet_invariant_witness :
    WalletInv regGold (runOps regGold initialWallet
      [WalletOp.setCurrency "gold" (JSVal.int 5),
       WalletOp.changeCurrency "gold" (JSVal.int 3),
       WalletOp.setWallet (JSVal.object [("gold", JSVal.int 1), ("bad", JSVal.int 2)])]) :=
  claim2_wallet_invariant regGold
    [WalletOp.setCurrency "gold" (JSVal.int 5),
     WalletOp.changeCurrency "gold" (JSVal.int 3),
     WalletOp.setWallet (JSVal.object [("gold", JSVal.int 1), ("bad", JSVal.int 2)])]

/-- JS check `typeof v === "string" && v.length >= 1`, the validity
condition addCurrency applies to `key` and `name`. -/
def isNonEmptyStr : JSVal → Bool
  | JSVal.str s => !(s.length < 1)
  | _ => false

/-- Sync policy values recognized by addCurrency: the integers
SYNC_TYPE_NONE..SYNC_TYPE_PLAYER. -/
def isRecognizedSyncPolicy : JSVal → Bool
  | JSVal.int st => !(decide (st < SYNC_TYPE_NONE ∨ SYNC_TYPE_PLAYER < st))
  | _ => false

/-- The value is a string already registered as a currency key. -/
def keyRegistered (reg : Registry) : JSVal → Bool
  | JSVal.str k => reg.hasCurrency k
  | _ => false

/-- InvalidArgument classification of addCurrency failures: every thrown
error except the duplicate-key AlreadyExists rejection. -/
def AddError.isInvalidArgument : AddError → Bool
  | AddError.alreadyExists => false
  | _ => true

/-- C7: addCurrency with an already-registered key always fails — every
execution path throws — and leaves the whole registry state unchanged,
with no currencyDefined event emitted. -/
theorem claim7_duplicate_define (reg : Registry) (k : String) (name syncType : JSVal)
    (hreg : reg.hasCurrency k = true) :
    (∃ e, (addCurrency reg (JSVal.str k) name syncType).result = Except.error e) ∧
    (addCurrency reg (JSVal.str k) name syncType).registry = reg ∧
    (addCurrency reg (JSVal.str k) name syncType).events = [] := by
  by_cases hk : k.length < 1
  · simp [addCurrency, hk]
  · cases name with
    | str nm =>
      by_cases hnm : nm.length < 1
      · simp [addCurrency, hk, hnm]
      · cases syncType <;> simp [addCurrency, hk, hnm, hreg]
    | int n => simp [addCurrency, hk]
    | float => simp [addCurrency, hk]
    | boolean b => simp [addCurrency, hk]
    | null => simp [addCurrency, hk]
    | undefined => simp [addCurrency, hk]
    | array => simp [addCurrency, hk]
    | object fields => simp [addCurrency, hk]

/-- Witness for C7: the spec's scenario — "gold" defined twice. The first
call on the empty registry produces `regGold`; the second call fails,
and the registry still reports exactly one "gold" currency with the
original definition. -/
theorem claim7_duplicate_define_witness :
    (addCurrency [] (JSVal.str "gold") (JSVal.str "Gold") (JSVal.int 1)).registry = regGold ∧
    (addCurrency regGold (JSVal.str "gold") (JSVal.str "Golden") (JSVal.int 2)).registry =
      regGold ∧
    (addCurrency regGold (JSVal.str "gold") (JSVal.str "Golden") (JSVal.int 2)).events = [] ∧
    Registry.getAllCurrencies regGold = ["gold"] ∧
    Registry.getCurrency regGold "gold" = some ⟨"Gold", 1, "currency_gold"⟩ := by
  have h := claim7_duplicate_define regGold "gold" (JSVal.str "Golden") (JSVal.int 2) rfl
  exact ⟨rfl, h.2.1, h.2.2, rfl, rfl⟩

/-- C3 (amended): addCurrency fails with AlreadyExists exactly when key
and displayName are valid non-empty strings, syncPolicy is an integer,
and key is already registered — including when that integer is out of
range, because the duplicate-key check precedes the range check; it
fails with an InvalidArgument error exactly when key is empty or not a
string, displayName is empty or not a string, syncPolicy is not an
integer, or syncPolicy is an out-of-range integer while key is not
already registered; on success it stores the record with syncKey
"currency_" ++ key, emits the currencyDefined notification carrying
(key, displayName, syncPolicy, syncKey), and returns the stored
record. -/
theorem claim3_addCurrency_amended (reg : Registry) (key name syncType : JSVal) :
    ((addCurrency reg key name syncType).result = Except.error AddError.alreadyExists ↔
      (isNonEmptyStr key = true ∧ isNonEmptyStr name = true ∧ isJsInteger syncType = true ∧
        keyRegistered reg key = true)) ∧
    ((∃ e, (addCurrency reg key name syncType).result = Except.error e ∧
        e.isInvalidArgument = true) ↔
      (isNonEmptyStr key = false ∨ isNonEmptyStr name = false ∨
        isJsInteger syncType = false ∨
        (isJsInteger syncType = true ∧ isRecognizedSyncPolicy syncType = false ∧
          keyRegistered reg key = false))) ∧
    (∀ k nm st, key = JSVal.str k → name = JSVal.str nm → syncType = JSVal.int st →
      isNonEmptyStr key = true → isNonEmptyStr name = true →
      reg.hasCurrency k = false → isRecognizedSyncPolicy syncType = true →
      addCurrency reg key name syncType =
        ⟨reg ++ [(k, ⟨nm, st, "currency_" ++ k⟩)], Except.ok ⟨nm, st, "currency_" ++ k⟩,
         [(k, nm, st, "currency_" ++ k)]⟩) := by
  cases key with
  | str k =>
    by_cases hk : k.length < 1
    · simp [addCurrency, hk, isNonEmptyStr, AddError.isInvalidArgument]
    · cases name with
      | str nm =>
        by_cases hnm : nm.length < 1
        · simp [addCurrency, hk, hnm, isNonEmptyStr, AddError.isInvalidArgument]
        · cases syncType with
          | int st =>
            by_cases hreg : reg.hasCurrency k
            · simp [addCurrency, hk, hnm, hreg, isNonEmptyStr, isJsInteger, keyRegistered,
                AddError.isInvalidArgument]
            · by_cases hrange : st < SYNC_TYPE_NONE ∨ SYNC_TYPE_PLAYER < st
              · simp [addCurrency, hk, hnm, hreg, hrange, isNonEmptyStr, isJsInteger,
                  keyRegistered, isRecognizedSyncPolicy, AddError.isInvalidArgument]
              · simp [addCurrency, hk, hnm, hreg, hrange, isNonEmptyStr, isJsInteger,
                  keyRegistered, isRecognizedSyncPolicy, AddError.isInvalidArgument]
          | float =>
            simp [addCurrency, hk, hnm, isNonEmptyStr, isJsInteger, AddError.isInvalidArgument]
          | str s =>
            simp [addCurrency, hk, hnm, isNonEmptyStr, isJsInteger, AddError.isInvalidArgument]
          | boolean b =>
            simp [addCurrency, hk, hnm, isNonEmptyStr, isJsInteger, AddError.isInvalidArgument]
          | null =>
            simp [addCurrency, hk, hnm, isNonEmptyStr, isJsInteger, AddError.isInvalidArgument]
          | undefined =>
            simp [addCurrency, hk, hnm, isNonEmptyStr, isJsInteger, AddError.isInvalidArgument]
          | array =>
            simp [addCurrency, hk, hnm, isNonEmptyStr, isJsInteger, AddError.isInvalidArgument]
          | object fields =>
            simp [addCurrency, hk, hnm, isNonEmptyStr, isJsInteger, AddError.isInvalidArgument]
      | int n => simp [addCurrency, hk, isNonEmptyStr, AddError.isInvalidArgument]
      | float => simp [addCurrency, hk, isNonEmptyStr, AddError.isInvalidArgument]
      | boolean b => simp [addCurrency, hk, isNonEmptyStr, AddError.isInvalidArgument]
      | null => simp [addCurrency, hk, isNonEmptyStr, AddError.isInvalidArgument]
      | undefined => simp [addCurrency, hk, isNonEmptyStr, AddError.isInvalidArgument]
      | array => simp [addCurrency, hk, isNonEmptyStr, AddError.isInvalidArgument]
      | object fields => simp [addCurrency, hk, isNonEmptyStr, AddError.isInvalidArgument]
  | int n => simp [addCurrency, isNonEmptyStr, AddError.isInvalidArgument]
  | float => simp [addCurrency, isNonEmptyStr, AddError.isInvalidArgument]
  | boolean b => simp [addCurrency, isNonEmptyStr, AddError.isInvalidArgument]
  | null => simp [addCurrency, isNonEmptyStr, AddError.isInvalidArgument]
  | undefined => simp [addCurrency, isNonEmptyStr, AddError.isInvalidArgument]
  | array => simp [addCurrency, isNonEmptyStr, AddError.isInvalidArgument]
  | object fields => simp [addCurrency, isNonEmptyStr, AddError.isInvalidArgument]

/-- Witness for C3: a fresh valid definition of "vip" on the gold-only
registry succeeds, stores syncKey "currency_vip", and emits one
currencyDefined event; defining "gold" again fails with AlreadyExists. -/
theorem claim3_addCurrency_amended_witness :
    addCurrency regGold (JSVal.str "vip") (JSVal.str "VIP Tokens") (JSVal.int 2) =
      ⟨regGold ++ [("vip", ⟨"VIP Tokens", 2, "currency_vip"⟩)],
       Except.ok ⟨"VIP Tokens", 2, "currency_vip"⟩,
       [("vip", "VIP Tokens", 2, "currency_vip")]⟩ ∧
    (addCurrency regGold (JSVal.str "gold") (JSVal.str "Gold") (JSVal.int 1)).result =
      Except.error AddError.alreadyExists := by
  have h := claim3_addCurrency_amended regGold (JSVal.str "vip") (JSVal.str "VIP Tokens")
    (JSVal.int 2)
  have h2 := claim3_addCurrency_amended regGold (JSVal.str "gold") (JSVal.str "Gold")
    (JSVal.int 1)
  constructor
  · have hnk : "currency_" ++ "vip" = "currency_vip" := rfl
    have := h.2.2 "vip" "VIP Tokens" 2 rfl rfl rfl rfl rfl rfl rfl
    rw [hnk] at this
    exact this
  · exact h2.1.mpr ⟨rfl, rfl, rfl, rfl⟩

/-- C3 counterexample: with "gold" already registered and the
unrecognized syncPolicy value 3, the claim as stated requires an
InvalidArgument failure (syncPolicy is not one of the three recognized
values), but addCurrency throws the AlreadyExists error instead, because
the duplicate-key check runs before the syncType range check. -/
theorem claim3_counterexample :
    isRecognizedSyncPolicy (JSVal.int 3) = false ∧
    (addCurrency regGold (JSVal.str "gold") (JSVal.str "Gold") (JSVal.int 3)).result =
      Except.error AddError.alreadyExists ∧
    AddError.isInvalidArgument AddError.alreadyExists = false :=
  ⟨rfl, rfl, rfl⟩
